import Mathlib

/-!
Verification development for the Ayurvedic e-commerce backend.

The definitions below are a shallow embedding of the JavaScript source:

- the product catalog (src/models/Product.js) becomes a list of `Product`
  records; Mongo `findById` becomes a first-match lookup by id;
- the checkout route handler (src/routes/orders.js, POST /checkout) becomes
  `checkout`, built from the sequential validation loop `checkoutLoop`, the
  order record construction, and the second-pass stock decrement
  `applyStockUpdates`; database writes are recorded as an explicit `Effect`
  trace so that all-or-nothing properties are statable;
- the in-memory cart routes (src/routes/cart.js) become `readCart`,
  `cartUpdate` and `calculateTotal` over a `Cart` value;
- the auth routes (src/routes/auth.js) become `register` and `login`, with
  the bcrypt primitives abstracted as function parameters;
- the category deletion routes (src/routes/categories.js DELETE /:id and
  src/routes/admin.js DELETE /categories/:id) become `deleteCategory` and
  `adminDeleteCategory`.

JavaScript numbers are modelled as `Rat` for prices and `Int` for stock and
quantities; note that the checkout route validates only that `items` is a
non-empty array and `address` has length at least 10, so an item quantity is
an arbitrary integer there.
-/

namespace AyurvedicBackend

/-- A catalog product, from src/models/Product.js (the fields the routes
under verification read or write). -/
structure Product where
  id : Nat
  name : String
  price : Rat
  stock : Int
  isActive : Bool
  category : Option Nat := none
  deriving DecidableEq, Repr

/-- Mongo findById over the catalog: first record with the given id. -/
def findById (db : List Product) (pid : Nat) : Option Product :=
  db.find? (fun p => p.id == pid)

/-- One line of a checkout request body: item.productId, item.quantity.
The route validators never constrain quantity, so it is any integer. -/
structure ReqItem where
  productId : Nat
  quantity : Int
  deriving DecidableEq, Repr

/-- A validated order line as pushed onto validatedItems in the checkout
handler: product reference, quantity, priceAtPurchase snapshot. -/
structure OrderItem where
  product : Nat
  quantity : Int
  priceAtPurchase : Rat
  deriving DecidableEq, Repr

/-- Order status values, from the order status enumeration. -/
inductive OrderStatus where
  | pending
  | paid
  | shipped
  | completed
  | cancelled
  deriving DecidableEq, Repr

/-- An order record as created by the checkout handler. -/
structure Order where
  user : Nat
  items : List OrderItem
  total : Rat
  address : String
  status : OrderStatus
  deriving DecidableEq, Repr

/-- Failure outcomes of the checkout handler: the express-validator 400 for
a malformed request, and the two in-loop 400 responses (one naming the
offending productId, one naming the offending product). -/
inductive CheckoutError where
  | validationFailed
  | productUnavailable (productId : Nat)
  | insufficientStock (productName : String)
  deriving DecidableEq, Repr

/-- A database write performed by the checkout handler: Order.create, or
Product.findByIdAndUpdate with an increment of the stock field. -/
inductive Effect where
  | insertOrder (o : Order)
  | updateStock (productId : Nat) (incBy : Int)
  deriving DecidableEq, Repr

/-- The first pass of the checkout handler: walk the submitted items in
order, look each product up, reject a missing or inactive product and a
quantity above stock, and otherwise push a snapshot line and accumulate the
running total. Mirrors the for-loop of POST /checkout. -/
def checkoutLoop (db : List Product) :
    List ReqItem → List OrderItem → Rat → Except CheckoutError (List OrderItem × Rat)
  | [], validated, total => Except.ok (validated, total)
  | item :: rest, validated, total =>
    match findById db item.productId with
    | none => Except.error (CheckoutError.productUnavailable item.productId)
    | some product =>
      if product.isActive = false then
        Except.error (CheckoutError.productUnavailable item.productId)
      else if product.stock < item.quantity then
        Except.error (CheckoutError.insufficientStock product.name)
      else
        checkoutLoop db rest
          (validated ++ [{ product := product.id, quantity := item.quantity,
                           priceAtPurchase := product.price }])
          (total + product.price * item.quantity)

/-- Product.findByIdAndUpdate with an increment of stock by incBy. -/
def updStock (db : List Product) (pid : Nat) (incBy : Int) : List Product :=
  db.map (fun p => if p.id = pid then { p with stock := p.stock + incBy } else p)

/-- The second pass of the checkout handler: for each validated line,
decrement that product's stock by the line quantity, sequentially. -/
def applyStockUpdates : List Product → List OrderItem → List Product
  | db, [] => db
  | db, it :: rest => applyStockUpdates (updStock db it.product (-it.quantity)) rest

/-- The POST /checkout handler. Returns the order or the error, together
with the catalog after the handler ran and the trace of database writes it
performed. An early return (validator failure or in-loop rejection) happens
before any write, so it leaves the catalog unchanged with an empty trace. -/
def checkout (db : List Product) (userId : Nat) (items : List ReqItem)
    (address : String) : Except CheckoutError Order × List Product × List Effect :=
  if items.isEmpty || address.length < 10 then
    (Except.error CheckoutError.validationFailed, db, [])
  else
    match checkoutLoop db items [] 0 with
    | Except.error e => (Except.error e, db, [])
    | Except.ok (validatedItems, total) =>
      let order : Order :=
        { user := userId, items := validatedItems, total := total,
          address := address, status := OrderStatus.pending }
      (Except.ok order, applyStockUpdates db validatedItems,
       Effect.insertOrder order ::
         validatedItems.map (fun it => Effect.updateStock it.product (-it.quantity)))

/-- The rejection, if any, that the validation loop issues for a single
line against the current catalog; none when the line passes. -/
def lineError (db : List Product) (item : ReqItem) : Option CheckoutError :=
  match findById db item.productId with
  | none => some (CheckoutError.productUnavailable item.productId)
  | some product =>
    if product.isActive = false then
      some (CheckoutError.productUnavailable item.productId)
    else if product.stock < item.quantity then
      some (CheckoutError.insufficientStock product.name)
    else none

/-- The error for the first offending line of a request, if any. -/
def firstError (db : List Product) (items : List ReqItem) : Option CheckoutError :=
  (items.filterMap (lineError db)).head?

/-- The snapshot lines the validation loop builds for a request whose lines
all pass: for each line, the found product's id and current price paired
with the submitted quantity. -/
def validatedOf (db : List Product) : List ReqItem → List OrderItem
  | [] => []
  | item :: rest =>
    match findById db item.productId with
    | none => validatedOf db rest
    | some product =>
      { product := product.id, quantity := item.quantity,
        priceAtPurchase := product.price } :: validatedOf db rest

/-- Sum over the submitted lines of (unit price at submission time times
quantity), the price being the looked-up product's current price. -/
def sumExt (db : List Product) : List ReqItem → Rat
  | [] => 0
  | item :: rest =>
    (match findById db item.productId with
     | none => 0
     | some product => product.price * item.quantity) + sumExt db rest

/-- Sum of the persisted line extensions of an order item list. -/
def lineExtSum : List OrderItem → Rat
  | [] => 0
  | it :: rest => it.priceAtPurchase * it.quantity + lineExtSum rest

/-- Total quantity the validated lines purchase of one product id. -/
def qtyOf : List OrderItem → Nat → Int
  | [], _ => 0
  | it :: rest, pid => (if it.product = pid then it.quantity else 0) + qtyOf rest pid

/-- When every submitted line passes, the validation loop returns the
snapshot lines appended to the accumulator and adds the sum of line
extensions to the running total. -/
theorem checkoutLoop_all_valid (db : List Product) :
    ∀ (items : List ReqItem) (acc : List OrderItem) (t : Rat),
      (∀ it ∈ items, lineError db it = none) →
      checkoutLoop db items acc t =
        Except.ok (acc ++ validatedOf db items, t + sumExt db items) := by
  intro items
  induction items with
  | nil =>
    intro acc t _
    simp [checkoutLoop, validatedOf, sumExt]
  | cons item rest ih =>
    intro acc t h
    have hhead : lineError db item = none := h item (by simp)
    have hrest : ∀ it ∈ rest, lineError db it = none := by
      intro it hit
      exact h it (by simp [hit])
    rw [checkoutLoop]
    cases hfind : findById db item.productId with
    | none =>
      rw [lineError, hfind] at hhead
      simp at hhead
    | some product =>
      rw [lineError, hfind] at hhead
      by_cases hact : product.isActive = false
      · simp [hact] at hhead
      · by_cases hstock : product.stock < item.quantity
        · simp [hact, hstock] at hhead
        · simp only [if_neg hact, if_neg hstock]
          rw [ih _ _ hrest]
          simp [validatedOf, sumExt, hfind, List.append_assoc, add_assoc]

/-- The validation loop fails with the error of the first offending line. -/
theorem checkoutLoop_firstError (db : List Product) :
    ∀ (items : List ReqItem) (acc : List OrderItem) (t : Rat) (e : CheckoutError),
      firstError db items = some e →
      checkoutLoop db items acc t = Except.error e := by
  intro items
  induction items with
  | nil =>
    intro acc t e he
    simp [firstError] at he
  | cons item rest ih =>
    intro acc t e he
    rw [firstError, List.filterMap_cons] at he
    rw [checkoutLoop]
    cases hline : lineError db item with
    | some e0 =>
      rw [hline] at he
      simp only [List.head?_cons, Option.some.injEq] at he
      subst he
      rw [lineError] at hline
      cases hfind : findById db item.productId with
      | none =>
        rw [hfind] at hline
        simp at hline
        simp [hline]
      | some product =>
        rw [hfind] at hline
        by_cases hact : product.isActive = false
        · simp [hact] at hline
          simp [hact, hline]
        · by_cases hstock : product.stock < item.quantity
          · simp [hact, hstock] at hline
            simp [hact, hstock, hline]
          · simp [hact, hstock] at hline
    | none =>
      rw [hline] at he
      rw [lineError] at hline
      cases hfind : findById db item.productId with
      | none =>
        rw [hfind] at hline
        simp at hline
      | some product =>
        rw [hfind] at hline
        by_cases hact : product.isActive = false
        · simp [hact] at hline
        · by_cases hstock : product.stock < item.quantity
          · simp [hact, hstock] at hline
          · simp [hact, hstock]
            exact ih _ _ _ he

/-- A request has no offending line exactly when every line passes. -/
theorem firstError_eq_none (db : List Product) (items : List ReqItem) :
    firstError db items = none ↔ ∀ it ∈ items, lineError db it = none := by
  induction items with
  | nil => simp [firstError]
  | cons item rest ih =>
    rw [firstError, List.filterMap_cons]
    cases hline : lineError db item with
    | some e0 => simp [hline]
    | none =>
      rw [firstError] at ih
      simp [hline, ih]

/-- The sequential per-line stock decrements amount to subtracting, from
each catalog product, the total quantity the validated lines purchase
of it. -/
theorem applyStockUpdates_eq_map :
    ∀ (vs : List OrderItem) (db : List Product),
      applyStockUpdates db vs =
        db.map (fun p => { p with stock := p.stock - qtyOf vs p.id }) := by
  intro vs
  induction vs with
  | nil =>
    intro db
    have hf : (fun p : Product => ({ p with stock := p.stock - qtyOf [] p.id } : Product)) =
        fun p => p := by
      funext p
      cases p
      simp [qtyOf]
    simp [applyStockUpdates, hf]
  | cons it rest ih =>
    intro db
    rw [applyStockUpdates, ih, updStock, List.map_map]
    have hf : ((fun p : Product => { p with stock := p.stock - qtyOf rest p.id }) ∘
          (fun p : Product => if p.id = it.product then { p with stock := p.stock + -it.quantity } else p)) =
        fun p : Product => { p with stock := p.stock - qtyOf (it :: rest) p.id } := by
      funext p
      by_cases hp : p.id = it.product
      · simp only [Function.comp, if_pos hp, qtyOf, if_pos hp.symm]
        cases p
        simp only [Product.mk.injEq, and_true, true_and]
        omega
      · have hp2 : ¬ it.product = p.id := fun hc => hp hc.symm
        simp only [Function.comp, if_neg hp, qtyOf, if_neg hp2]
        cases p
        simp only [Product.mk.injEq, and_true, true_and]
        omega
    rw [hf]

/-- Under a passing request, each line yields one snapshot line. -/
theorem validatedOf_length (db : List Product) :
    ∀ items : List ReqItem,
      (∀ it ∈ items, lineError db it = none) →
      (validatedOf db items).length = items.length := by
  intro items
  induction items with
  | nil => intro _; simp [validatedOf]
  | cons item rest ih =>
    intro h
    have hhead : lineError db item = none := h item (by simp)
    have hrest : ∀ it ∈ rest, lineError db it = none := by
      intro it hit
      exact h it (by simp [hit])
    rw [lineError] at hhead
    cases hfind : findById db item.productId with
    | none =>
      rw [hfind] at hhead
      simp at hhead
    | some product =>
      rw [validatedOf, hfind]
      simp [ih hrest]

/-- The sum of persisted line extensions of the snapshot lines equals the
sum over the submitted lines of current price times quantity. -/
theorem lineExtSum_validatedOf (db : List Product) :
    ∀ items : List ReqItem, lineExtSum (validatedOf db items) = sumExt db items := by
  intro items
  induction items with
  | nil => simp [validatedOf, sumExt, lineExtSum]
  | cons item rest ih =>
    rw [validatedOf, sumExt]
    cases hfind : findById db item.productId with
    | none => simp [ih]
    | some product => simp [lineExtSum, ih]

/-- A passing line's snapshot appears among the snapshot lines. -/
theorem validatedOf_mem (db : List Product) (item0 : ReqItem) (p0 : Product)
    (hfind : findById db item0.productId = some p0) :
    ∀ items : List ReqItem, item0 ∈ items →
      ({ product := p0.id, quantity := item0.quantity,
         priceAtPurchase := p0.price } : OrderItem) ∈ validatedOf db items := by
  intro items
  induction items with
  | nil => intro h; simp at h
  | cons item rest ih =>
    intro hmem
    rcases List.mem_cons.mp hmem with heq | htail
    · subst heq
      rw [validatedOf, hfind]
      simp
    · rw [validatedOf]
      cases hfind2 : findById db item.productId with
      | none => exact ih htail
      | some product => exact List.mem_cons_of_mem _ (ih htail)

/-- A found product carries the id it was looked up by. -/
theorem findById_id_eq (db : List Product) (pid : Nat) (p : Product)
    (h : findById db pid = some p) : p.id = pid := by
  rw [findById] at h
  have := List.find?_some h
  simpa using this

/-- Looking a product up after a stock-only rewrite of the catalog finds
the rewritten version of the product found before the rewrite. -/
theorem findById_map_stock (db : List Product) (f : Product → Int) (pid : Nat) :
    findById (db.map (fun p => { p with stock := f p })) pid =
      (findById db pid).map (fun p => { p with stock := f p }) := by
  induction db with
  | nil => rfl
  | cons p rest ih =>
    simp only [findById] at ih ⊢
    simp only [List.map_cons, List.find?_cons]
    by_cases hp : (p.id == pid) = true
    · simp [hp]
    · simp only [hp, if_false]
      exact ih

/-- A handler request shape that passes the express-validator stage of
POST /checkout: a non-empty items array and an address of length at
least 10. -/
theorem checkout_passes_validators (db : List Product) (userId : Nat)
    (items : List ReqItem) (address : String)
    (hne : items ≠ []) (haddr : 10 ≤ address.length) :
    checkout db userId items address =
      (match checkoutLoop db items [] 0 with
       | Except.error e => (Except.error e, db, [])
       | Except.ok (validatedItems, total) =>
         let order : Order :=
           { user := userId, items := validatedItems, total := total,
             address := address, status := OrderStatus.pending }
         (Except.ok order, applyStockUpdates db validatedItems,
          Effect.insertOrder order ::
            validatedItems.map (fun it => Effect.updateStock it.product (-it.quantity)))) := by
  have hie : items.isEmpty = false := by
    cases items with
    | nil => exact absurd rfl hne
    | cons a l => rfl
  have hcond : (items.isEmpty || decide (address.length < 10)) = false := by
    rw [hie, decide_eq_false (Nat.not_lt.mpr haddr)]
    rfl
  rw [checkout, hcond]
  rw [if_neg Bool.false_ne_true]

/-- C1: a checkout request passing route validation in which every line
references an existing active product with quantity at most its stock
produces an order with status pending whose lines are the current-price
snapshots of the submitted lines, and whose total equals the sum over the
submitted lines of current price times quantity, which equals the sum of
the persisted line extensions. -/
theorem C1_checkout_valid_total (db : List Product) (userId : Nat)
    (items : List ReqItem) (address : String)
    (hne : items ≠ []) (haddr : 10 ≤ address.length)
    (hvalid : ∀ it ∈ items, lineError db it = none) :
    ∃ order db2 effs,
      checkout db userId items address = (Except.ok order, db2, effs) ∧
      order.status = OrderStatus.pending ∧
      order.items = validatedOf db items ∧
      order.total = sumExt db items ∧
      order.total = lineExtSum order.items := by
  rw [checkout_passes_validators db userId items address hne haddr]
  rw [checkoutLoop_all_valid db items [] 0 hvalid]
  simp only [List.nil_append, zero_add]
  exact ⟨_, _, _, rfl, rfl, rfl, rfl, (lineExtSum_validatedOf db items).symm⟩

/-- C2: a checkout request passing route validation with at least one line
referencing a missing or inactive product or exceeding its stock fails
with the error naming the first offending line, creates no order and
performs no stock mutation for any line. -/
theorem C2_checkout_invalid_rejected (db : List Product) (userId : Nat)
    (items : List ReqItem) (address : String)
    (hne : items ≠ []) (haddr : 10 ≤ address.length)
    (hbad : ∃ it ∈ items, lineError db it ≠ none) :
    ∃ e, firstError db items = some e ∧
      checkout db userId items address = (Except.error e, db, []) := by
  cases hfe : firstError db items with
  | none =>
    obtain ⟨it, hit, hbadit⟩ := hbad
    exact absurd ((firstError_eq_none db items).mp hfe it hit) hbadit
  | some e =>
    refine ⟨e, rfl, ?_⟩
    rw [checkout_passes_validators db userId items address hne haddr]
    rw [checkoutLoop_firstError db items [] 0 e hfe]

/-- C3: a successful checkout subtracts from each catalog product exactly
the total quantity the order lines purchase of it, and its write trace is
exactly one order insertion followed by one stock update per line item. -/
theorem C3_checkout_success_effects (db : List Product) (userId : Nat)
    (items : List ReqItem) (address : String)
    (hne : items ≠ []) (haddr : 10 ≤ address.length)
    (hvalid : ∀ it ∈ items, lineError db it = none) :
    ∃ order,
      checkout db userId items address =
        (Except.ok order,
         db.map (fun p => { p with stock := p.stock - qtyOf order.items p.id }),
         Effect.insertOrder order ::
           order.items.map (fun it => Effect.updateStock it.product (-it.quantity))) ∧
      order.items.length = items.length := by
  rw [checkout_passes_validators db userId items address hne haddr]
  rw [checkoutLoop_all_valid db items [] 0 hvalid]
  simp only [List.nil_append, zero_add]
  refine ⟨{ user := userId, items := validatedOf db items, total := sumExt db items,
            address := address, status := OrderStatus.pending }, ?_, ?_⟩
  · rw [applyStockUpdates_eq_map]
  · exact validatedOf_length db items hvalid

/-- C9: the checkout route never requires a line quantity to be at least
one: a request whose lines all pass the loop checks may carry a line with
zero or negative quantity, the order then includes that line and its
snapshot, the stock-update pass records an increment of minus that
quantity, and when the line is the only one for its product a negative
quantity leaves the product with strictly more stock than before. -/
theorem C9_checkout_accepts_nonpositive_quantity
    (db : List Product) (userId : Nat) (items : List ReqItem) (address : String)
    (item0 : ReqItem) (p0 : Product)
    (hne : items ≠ []) (haddr : 10 ≤ address.length)
    (hvalid : ∀ it ∈ items, lineError db it = none)
    (hmem : item0 ∈ items) (_hq : item0.quantity ≤ 0)
    (hfind : findById db item0.productId = some p0) :
    ∃ order db2 effs,
      checkout db userId items address = (Except.ok order, db2, effs) ∧
      ({ product := p0.id, quantity := item0.quantity,
         priceAtPurchase := p0.price } : OrderItem) ∈ order.items ∧
      Effect.updateStock p0.id (-item0.quantity) ∈ effs ∧
      (item0.quantity < 0 → qtyOf order.items p0.id = item0.quantity →
        ∃ p2, findById db2 p0.id = some p2 ∧ p0.stock < p2.stock) := by
  rw [checkout_passes_validators db userId items address hne haddr]
  rw [checkoutLoop_all_valid db items [] 0 hvalid]
  simp only [List.nil_append, zero_add]
  have hsnap := validatedOf_mem db item0 p0 hfind items hmem
  refine ⟨_, _, _, rfl, hsnap, ?_, ?_⟩
  · exact List.mem_cons_of_mem _ (List.mem_map_of_mem _ hsnap)
  · intro hneg hqty
    rw [applyStockUpdates_eq_map]
    rw [findById_map_stock db (fun p => p.stock - qtyOf (validatedOf db items) p.id) p0.id]
    have hid : p0.id = item0.productId := findById_id_eq db item0.productId p0 hfind
    rw [hid, hfind]
    refine ⟨_, rfl, ?_⟩
    have hqty2 : qtyOf (validatedOf db items) p0.id = item0.quantity := hqty
    show p0.stock < p0.stock - qtyOf (validatedOf db items) p0.id
    rw [hqty2]
    omega

/-- A one-product demonstration catalog: product 1, price 10, stock 5,
active. -/
def demoProduct : Product :=
  { id := 1, name := "A", price := 10, stock := 5, isActive := true }

/-- The demonstration catalog as a product list. -/
def demoDb : List Product := [demoProduct]

/-- C10: checkout does not preserve non-negative stock across lines sharing
a product: a single line of quantity 3 against stock 5 passes the loop
check on its own, yet a request made of two such lines for the same
product, whose quantities sum to 6 over the stock of 5, succeeds and
leaves the stock at minus one. -/
theorem C10_duplicate_lines_drive_stock_negative :
    lineError demoDb { productId := 1, quantity := 3 } = none ∧
    (5 : Int) < 3 + 3 ∧
    (∃ order,
      (checkout demoDb 7
          [{ productId := 1, quantity := 3 }, { productId := 1, quantity := 3 }]
          "12 Example Street").1 = Except.ok order ∧
      order.status = OrderStatus.pending ∧
      order.items = [{ product := 1, quantity := 3, priceAtPurchase := 10 },
                     { product := 1, quantity := 3, priceAtPurchase := 10 }]) ∧
    (checkout demoDb 7
        [{ productId := 1, quantity := 3 }, { productId := 1, quantity := 3 }]
        "12 Example Street").2.1 =
      [{ id := 1, name := "A", price := 10, stock := -1, isActive := true }] := by
  refine ⟨rfl, by decide, ⟨_, by rfl, by rfl, by rfl⟩, by rfl⟩

/-- Witness instantiating the valid-checkout theorem on a one-line request
of quantity 3 against the demonstration catalog. -/
theorem C1_checkout_valid_total_witness :
    ∃ order db2 effs,
      checkout demoDb 7 [{ productId := 1, quantity := 3 }] "12 Example Street" =
        (Except.ok order, db2, effs) ∧
      order.status = OrderStatus.pending ∧
      order.items = validatedOf demoDb [{ productId := 1, quantity := 3 }] ∧
      order.total = sumExt demoDb [{ productId := 1, quantity := 3 }] ∧
      order.total = lineExtSum order.items :=
  C1_checkout_valid_total demoDb 7 [{ productId := 1, quantity := 3 }]
    "12 Example Street" (by decide) (by decide) (by decide)

/-- Witness instantiating the rejection theorem on a request naming an
absent product id. -/
theorem C2_checkout_invalid_rejected_witness :
    ∃ e, firstError demoDb [{ productId := 2, quantity := 1 }] = some e ∧
      checkout demoDb 7 [{ productId := 2, quantity := 1 }] "12 Example Street" =
        (Except.error e, demoDb, []) :=
  C2_checkout_invalid_rejected demoDb 7 [{ productId := 2, quantity := 1 }]
    "12 Example Street" (by decide) (by decide) (by decide)

/-- Witness instantiating the success-effects theorem on a one-line request
of quantity 2 against the demonstration catalog. -/
theorem C3_checkout_success_effects_witness :
    ∃ order,
      checkout demoDb 7 [{ productId := 1, quantity := 2 }] "12 Example Street" =
        (Except.ok order,
         demoDb.map (fun p => { p with stock := p.stock - qtyOf order.items p.id }),
         Effect.insertOrder order ::
           order.items.map (fun it => Effect.updateStock it.product (-it.quantity))) ∧
      order.items.length = ([{ productId := 1, quantity := 2 }] : List ReqItem).length :=
  C3_checkout_success_effects demoDb 7 [{ productId := 1, quantity := 2 }]
    "12 Example Street" (by decide) (by decide) (by decide)

/-- Witness instantiating the nonpositive-quantity theorem on a single
line of quantity minus 3 against the demonstration catalog. -/
theorem C9_checkout_accepts_nonpositive_quantity_witness :
    ∃ order db2 effs,
      checkout demoDb 7 [{ productId := 1, quantity := -3 }] "12 Example Street" =
        (Except.ok order, db2, effs) ∧
      ({ product := demoProduct.id,
         quantity := ({ productId := 1, quantity := -3 } : ReqItem).quantity,
         priceAtPurchase := demoProduct.price } : OrderItem) ∈ order.items ∧
      Effect.updateStock demoProduct.id
        (-({ productId := 1, quantity := -3 } : ReqItem).quantity) ∈ effs ∧
      (({ productId := 1, quantity := -3 } : ReqItem).quantity < 0 →
        qtyOf order.items demoProduct.id =
          ({ productId := 1, quantity := -3 } : ReqItem).quantity →
        ∃ p2, findById db2 demoProduct.id = some p2 ∧ demoProduct.stock < p2.stock) :=
  C9_checkout_accepts_nonpositive_quantity demoDb 7
    [{ productId := 1, quantity := -3 }] "12 Example Street"
    { productId := 1, quantity := -3 } demoProduct
    (by decide) (by decide) (by decide) (by decide) (by decide) (by decide)

/-- A stored cart line of the in-memory session cart: product reference,
quantity, and the price captured when the line was added. -/
structure CartItem where
  productId : Nat
  quantity : Int
  price : Rat
  deriving DecidableEq, Repr

/-- A session cart: the stored line list and the stored total field. -/
structure Cart where
  items : List CartItem
  total : Rat
  deriving DecidableEq, Repr

/-- The calculateTotal helper of the cart routes: reduce over the lines,
accumulating price times quantity from zero. -/
def calculateTotal (items : List CartItem) : Rat :=
  items.foldl (fun total item => total + item.price * item.quantity) 0

/-- The response of GET /cart: the populated lines that survive the
deleted-product filter, and the returned total. -/
structure CartReadResult where
  items : List (CartItem × Option Product)
  total : Rat
  deriving DecidableEq, Repr

/-- The GET /cart handler: populate each stored line with its product
(none when the product no longer exists), drop the lines whose product is
gone from the returned list, and return calculateTotal of the stored
lines as the total. -/
def readCart (db : List Product) (cart : Cart) : CartReadResult :=
  let populatedItems := cart.items.map (fun item => (item, findById db item.productId))
  { items := populatedItems.filter (fun x => x.2.isSome),
    total := calculateTotal cart.items }

/-- Failure outcomes of the cart update route: the express-validator 400,
the 404 for a line absent from the cart, and the 400 insufficient-stock
response (also issued when the product no longer exists). -/
inductive CartError where
  | validationFailed
  | itemNotFound
  | insufficientStock
  deriving DecidableEq, Repr

/-- Membership of a product reference among the stored lines, as the
findIndex check of the cart routes observes it. -/
def containsPid (pid : Nat) : List CartItem → Bool
  | [] => false
  | it :: rest => it.productId == pid || containsPid pid rest

/-- Splice of the first line with the given product reference, as the
findIndex plus splice pair of the cart routes performs it. -/
def removeFirst (pid : Nat) : List CartItem → List CartItem
  | [] => []
  | it :: rest => if it.productId == pid then rest else it :: removeFirst pid rest

/-- Overwrite of the stored quantity on the first line with the given
product reference. -/
def setQty (pid : Nat) (q : Int) : List CartItem → List CartItem
  | [] => []
  | it :: rest =>
    if it.productId == pid then { it with quantity := q } :: rest
    else it :: setQty pid q rest

/-- The PUT /cart/update handler: the validator requires a non-negative
integer quantity; a product reference absent from the cart is a 404;
quantity zero splices the line out; otherwise a missing product or a
quantity above current stock is rejected, and on success the stored
quantity is overwritten; either success recomputes the stored total. -/
def cartUpdate (db : List Product) (cart : Cart) (pid : Nat) (q : Int) :
    Except CartError Cart :=
  if q < 0 then Except.error CartError.validationFailed
  else if containsPid pid cart.items = false then Except.error CartError.itemNotFound
  else if q = 0 then
    let items2 := removeFirst pid cart.items
    Except.ok { items := items2, total := calculateTotal items2 }
  else
    match findById db pid with
    | none => Except.error CartError.insufficientStock
    | some product =>
      if product.stock < q then Except.error CartError.insufficientStock
      else
        let items2 := setQty pid q cart.items
        Except.ok { items := items2, total := calculateTotal items2 }

/-- Straight-recursion sum of price times quantity over stored lines. -/
def sumLines : List CartItem → Rat
  | [] => 0
  | it :: rest => it.price * it.quantity + sumLines rest

/-- The reduce-style total is the sum of price times quantity. -/
theorem calculateTotal_eq_sumLines (items : List CartItem) :
    calculateTotal items = sumLines items := by
  have haux : ∀ (l : List CartItem) (a : Rat),
      l.foldl (fun total item => total + item.price * (item.quantity : Rat)) a =
        a + sumLines l := by
    intro l
    induction l with
    | nil => intro a; simp [sumLines]
    | cons it rest ih =>
      intro a
      rw [List.foldl_cons, ih, sumLines, add_assoc]
  rw [calculateTotal, haux, zero_add]

/-- The lines surviving the populate-and-filter pass of GET /cart are the
stored lines whose product still exists. -/
theorem readCart_items_fst (db : List Product) :
    ∀ items : List CartItem,
      ((items.map (fun it => (it, findById db it.productId))).filter
          (fun x => x.2.isSome)).map Prod.fst =
        items.filter (fun it => (findById db it.productId).isSome) := by
  intro items
  induction items with
  | nil => rfl
  | cons it rest ih =>
    simp only [List.map_cons, List.filter_cons]
    cases hf : (findById db it.productId).isSome
    · simp [hf, ih]
    · simp [hf, ih]

/-- A stored line count of zero for a product reference means the cart
does not contain it. -/
theorem containsPid_eq_false_of_countP_eq_zero (pid : Nat) :
    ∀ l : List CartItem,
      l.countP (fun it => it.productId == pid) = 0 → containsPid pid l = false := by
  intro l
  induction l with
  | nil => intro _; rfl
  | cons it rest ih =>
    intro h
    rw [List.countP_cons] at h
    rw [containsPid]
    by_cases hp : (it.productId == pid) = true
    · simp [hp] at h
    · simp only [hp, Bool.false_or]
      simp only [hp, if_false, add_zero] at h
      exact ih h

/-- A product reference occurring at most once disappears entirely when
its first occurrence is spliced out. -/
theorem removeFirst_not_contains (pid : Nat) :
    ∀ l : List CartItem,
      l.countP (fun it => it.productId == pid) ≤ 1 →
      containsPid pid (removeFirst pid l) = false := by
  intro l
  induction l with
  | nil => intro _; rfl
  | cons it rest ih =>
    intro hc
    rw [List.countP_cons] at hc
    rw [removeFirst]
    by_cases hp : (it.productId == pid) = true
    · rw [if_pos hp]
      simp only [hp, if_true] at hc
      exact containsPid_eq_false_of_countP_eq_zero pid rest (by omega)
    · rw [if_neg hp, containsPid]
      simp only [hp, Bool.false_or]
      simp only [hp, if_false, add_zero] at hc
      exact ih hc

/-- Overwriting the quantity of a present product reference leaves a line
with that reference carrying the new quantity. -/
theorem setQty_mem (pid : Nat) (q : Int) :
    ∀ l : List CartItem, containsPid pid l = true →
      ∃ it ∈ setQty pid q l, it.productId = pid ∧ it.quantity = q := by
  intro l
  induction l with
  | nil => intro h; simp [containsPid] at h
  | cons it rest ih =>
    intro h
    rw [setQty]
    by_cases hp : (it.productId == pid) = true
    · rw [if_pos hp]
      exact ⟨{ it with quantity := q }, by simp, by simpa using hp, rfl⟩
    · rw [if_neg hp]
      rw [containsPid] at h
      simp only [hp, Bool.false_or] at h
      obtain ⟨it2, hmem2, hprops⟩ := ih h
      exact ⟨it2, List.mem_cons_of_mem _ hmem2, hprops⟩

/-- C4 amended: every cart read filters lines referencing since-deleted
products out of the returned item list without error, and recomputes the
returned total as the sum of stored unit price times quantity over all
stored lines — including those filtered out for a deleted product — never
trusting the stored total field. -/
theorem C4_cart_read_filter_and_total (db : List Product) (cart : Cart) :
    (readCart db cart).items.map Prod.fst =
      cart.items.filter (fun it => (findById db it.productId).isSome) ∧
    (readCart db cart).total = sumLines cart.items := by
  constructor
  · exact readCart_items_fst db cart.items
  · exact calculateTotal_eq_sumLines cart.items

/-- C4 counterexample: reading a cart whose only stored line references a
deleted product returns an empty line list, yet returns as total the
stored line's extension of twenty rather than the sum over the returned
lines, which is zero. -/
theorem C4_cart_total_counterexample :
    (readCart [] { items := [{ productId := 1, quantity := 2, price := 10 }],
                   total := 0 }).items = [] ∧
    ¬ (readCart [] { items := [{ productId := 1, quantity := 2, price := 10 }],
                     total := 0 }).total =
        sumLines (((readCart [] { items := [{ productId := 1, quantity := 2, price := 10 }],
                                  total := 0 }).items).map Prod.fst) := by
  refine ⟨rfl, ?_⟩
  have hT : (readCart [] { items := [{ productId := 1, quantity := 2, price := 10 }],
                           total := 0 }).total = 20 := by
    show calculateTotal [{ productId := 1, quantity := 2, price := 10 }] = 20
    rw [calculateTotal_eq_sumLines, sumLines, sumLines]
    norm_num
  have hI : (((readCart [] { items := [{ productId := 1, quantity := 2, price := 10 }],
                             total := 0 }).items).map Prod.fst) = ([] : List CartItem) := rfl
  rw [hT, hI, sumLines]
  norm_num

/-- C5: for a line present in the session cart, quantity zero splices the
line out — entirely, when the cart holds at most one line for the
product; a positive quantity is re-validated against the product's
current stock, rejected as insufficient when above it, and on success
overwrites the stored quantity of that line; both mutations recompute the
stored total. -/
theorem C5_cart_update_line (db : List Product) (cart : Cart) (pid : Nat) (q : Int)
    (hmem : containsPid pid cart.items = true) :
    (q = 0 →
      cartUpdate db cart pid q =
        Except.ok { items := removeFirst pid cart.items,
                    total := calculateTotal (removeFirst pid cart.items) } ∧
      (cart.items.countP (fun it => it.productId == pid) ≤ 1 →
        containsPid pid (removeFirst pid cart.items) = false)) ∧
    (∀ p, 0 < q → findById db pid = some p → p.stock < q →
      cartUpdate db cart pid q = Except.error CartError.insufficientStock) ∧
    (∀ p, 0 < q → findById db pid = some p → q ≤ p.stock →
      cartUpdate db cart pid q =
        Except.ok { items := setQty pid q cart.items,
                    total := calculateTotal (setQty pid q cart.items) } ∧
      ∃ it ∈ setQty pid q cart.items, it.productId = pid ∧ it.quantity = q) := by
  refine ⟨?_, ?_, ?_⟩
  · intro hq0
    subst hq0
    refine ⟨?_, removeFirst_not_contains pid cart.items⟩
    rw [cartUpdate, if_neg (by omega)]
    rw [if_neg (by simp [hmem])]
    rw [if_pos rfl]
  · intro p hqpos hfindp hstock
    rw [cartUpdate, if_neg (by omega)]
    rw [if_neg (by simp [hmem])]
    rw [if_neg (by omega)]
    rw [hfindp]
    simp [hstock]
  · intro p hqpos hfindp hstock
    refine ⟨?_, setQty_mem pid q cart.items hmem⟩
    rw [cartUpdate, if_neg (by omega)]
    rw [if_neg (by simp [hmem])]
    rw [if_neg (by omega)]
    rw [hfindp]
    simp [Int.not_lt.mpr hstock]

/-- Witness instantiating the cart update theorem on a one-line cart for
product 1 of the demonstration catalog with requested quantity 3. -/
theorem C5_cart_update_line_witness :
    ((3 : Int) = 0 →
      cartUpdate demoDb { items := [{ productId := 1, quantity := 2, price := 10 }],
                          total := 20 } 1 3 =
        Except.ok { items := removeFirst 1 [{ productId := 1, quantity := 2, price := 10 }],
                    total := calculateTotal
                      (removeFirst 1 [{ productId := 1, quantity := 2, price := 10 }]) } ∧
      (([{ productId := 1, quantity := 2, price := 10 }] : List CartItem).countP
          (fun it => it.productId == 1) ≤ 1 →
        containsPid 1 (removeFirst 1 [{ productId := 1, quantity := 2, price := 10 }]) = false)) ∧
    (∀ p, (0 : Int) < 3 → findById demoDb 1 = some p → p.stock < 3 →
      cartUpdate demoDb { items := [{ productId := 1, quantity := 2, price := 10 }],
                          total := 20 } 1 3 = Except.error CartError.insufficientStock) ∧
    (∀ p, (0 : Int) < 3 → findById demoDb 1 = some p → 3 ≤ p.stock →
      cartUpdate demoDb { items := [{ productId := 1, quantity := 2, price := 10 }],
                          total := 20 } 1 3 =
        Except.ok { items := setQty 1 3 [{ productId := 1, quantity := 2, price := 10 }],
                    total := calculateTotal
                      (setQty 1 3 [{ productId := 1, quantity := 2, price := 10 }]) } ∧
      ∃ it ∈ setQty 1 3 [{ productId := 1, quantity := 2, price := 10 }],
        it.productId = 1 ∧ it.quantity = 3) :=
  C5_cart_update_line demoDb
    { items := [{ productId := 1, quantity := 2, price := 10 }], total := 20 } 1 3
    (by decide)

/-- Embedding of the JavaScript toLowerCase call on an email: lowercase
every character, by structural recursion over the characters. -/
def strToLower (s : String) : String := String.mk (s.data.map Char.toLower)

/-- A user role: the role field is one of user and admin. -/
inductive Role where
  | user
  | admin
  deriving DecidableEq, Repr

/-- A stored user record, from the User model as the auth routes use it. -/
structure User where
  id : Nat
  name : String
  email : String
  passwordHash : String
  role : Role
  deriving DecidableEq, Repr

/-- User.findOne on the lowercased submitted email. -/
def findUserByEmail (users : List User) (email : String) : Option User :=
  users.find? (fun u => u.email == strToLower email)

/-- The payload signed into the bearer token: id, email, role, name. -/
structure TokenPayload where
  id : Nat
  email : String
  role : Role
  name : String
  deriving DecidableEq, Repr

/-- The success response of login: the token payload and the public user
view, both built from one user record. -/
def authOkOf (u : User) : TokenPayload × User :=
  ({ id := u.id, email := u.email, role := u.role, name := u.name }, u)

/-- The POST /login handler after its validator stage: look the user up by
lowercased email, answer status 400 with the fixed message when absent,
compare the password against the stored hash with the bcrypt comparison
primitive, answer the same status and message on mismatch, and otherwise
issue the signed token. -/
def login (compareHash : String → String → Bool) (users : List User)
    (email password : String) : Except (Nat × String) (TokenPayload × User) :=
  match findUserByEmail users email with
  | none => Except.error (400, "Invalid credentials")
  | some user =>
    if compareHash password user.passwordHash = false then
      Except.error (400, "Invalid credentials")
    else Except.ok (authOkOf user)

/-- The POST /register handler after its validator stage: reject when a
user already holds the lowercased submitted email, and otherwise create a
user with the lowercased email, the bcrypt hash of the password, and role
user. Returns the user list after the handler ran with the created
record. -/
def register (hash : String → String) (newId : Nat) (users : List User)
    (name email password : String) : Except (Nat × String) (List User × User) :=
  match findUserByEmail users email with
  | some _ => Except.error (400, "Email already in use")
  | none =>
    let u : User := { id := newId, name := name, email := strToLower email,
                      passwordHash := hash password, role := Role.user }
    Except.ok (users ++ [u], u)

/-- C6: a login attempt with an email no user holds and a login attempt
with a held email but a password failing the hash comparison yield the
same observable error: status 400 with the one fixed message, so a caller
cannot tell whether the email exists. -/
theorem C6_login_indistinguishable (compareHash : String → String → Bool)
    (users : List User) (e1 p1 e2 p2 : String) (u : User)
    (h1 : findUserByEmail users e1 = none)
    (h2 : findUserByEmail users e2 = some u)
    (h3 : compareHash p2 u.passwordHash = false) :
    login compareHash users e1 p1 = Except.error (400, "Invalid credentials") ∧
    login compareHash users e2 p2 = Except.error (400, "Invalid credentials") ∧
    login compareHash users e1 p1 = login compareHash users e2 p2 := by
  have ha : login compareHash users e1 p1 = Except.error (400, "Invalid credentials") := by
    rw [login, h1]
  have hb : login compareHash users e2 p2 = Except.error (400, "Invalid credentials") := by
    rw [login, h2]
    simp [h3]
  exact ⟨ha, hb, ha.trans hb.symm⟩

/-- Witness instantiating the login indistinguishability theorem on a
one-user store, an unknown email, and a wrong password for the known
email. -/
theorem C6_login_indistinguishable_witness :
    login (fun p h => p == h) [{ id := 1, name := "A", email := "a@x.com",
                                 passwordHash := "secret", role := Role.user }]
        "b@x.com" "whatever" = Except.error (400, "Invalid credentials") ∧
    login (fun p h => p == h) [{ id := 1, name := "A", email := "a@x.com",
                                 passwordHash := "secret", role := Role.user }]
        "A@x.com" "wrong" = Except.error (400, "Invalid credentials") ∧
    login (fun p h => p == h) [{ id := 1, name := "A", email := "a@x.com",
                                 passwordHash := "secret", role := Role.user }]
        "b@x.com" "whatever" =
      login (fun p h => p == h) [{ id := 1, name := "A", email := "a@x.com",
                                   passwordHash := "secret", role := Role.user }]
        "A@x.com" "wrong" :=
  C6_login_indistinguishable (fun p h => p == h)
    [{ id := 1, name := "A", email := "a@x.com", passwordHash := "secret",
       role := Role.user }]
    "b@x.com" "whatever" "A@x.com" "wrong"
    { id := 1, name := "A", email := "a@x.com", passwordHash := "secret",
      role := Role.user }
    (by decide) (by decide) (by decide)

/-- C7: with every stored email lowercase — the invariant registration
itself maintains — a registration whose email equals a stored one up to
case is rejected as a duplicate with no user created, and otherwise a
user is created carrying role user, the lowercased submitted email, and
the hash of the password as its credential. -/
theorem C7_register_duplicate_or_create (hash : String → String) (newId : Nat)
    (users : List User) (name email password : String)
    (hlow : ∀ u ∈ users, strToLower u.email = u.email) :
    ((∃ u ∈ users, strToLower u.email = strToLower email) →
      register hash newId users name email password =
        Except.error (400, "Email already in use")) ∧
    ((∀ u ∈ users, strToLower u.email ≠ strToLower email) →
      ∃ u2, register hash newId users name email password =
          Except.ok (users ++ [u2], u2) ∧
        u2.role = Role.user ∧ u2.email = strToLower email ∧
        u2.passwordHash = hash password) := by
  constructor
  · intro hdup
    obtain ⟨u, hu, he⟩ := hdup
    have hue : u.email = strToLower email := by
      rw [← hlow u hu, he]
    cases hf : findUserByEmail users email with
    | none =>
      rw [findUserByEmail, List.find?_eq_none] at hf
      exact absurd (by simpa using hue) (hf u hu)
    | some u3 =>
      rw [register, hf]
  · intro hnodup
    have hf : findUserByEmail users email = none := by
      rw [findUserByEmail, List.find?_eq_none]
      intro u hu
      simp only [beq_iff_eq]
      intro hue
      exact hnodup u hu (by rw [← hue] at *; exact hlow u hu)
    rw [register, hf]
    exact ⟨_, rfl, rfl, rfl, rfl⟩

/-- Witness instantiating the registration theorem on a one-user store
holding a lowercase email. -/
theorem C7_register_duplicate_or_create_witness :
    ((∃ u ∈ ([{ id := 1, name := "A", email := "a@x.com", passwordHash := "h1",
                role := Role.user }] : List User),
        strToLower u.email = strToLower "A@x.com") →
      register (fun s => s ++ "#h") 2
          [{ id := 1, name := "A", email := "a@x.com", passwordHash := "h1",
             role := Role.user }] "B" "A@x.com" "password1" =
        Except.error (400, "Email already in use")) ∧
    ((∀ u ∈ ([{ id := 1, name := "A", email := "a@x.com", passwordHash := "h1",
                role := Role.user }] : List User),
        strToLower u.email ≠ strToLower "A@x.com") →
      ∃ u2, register (fun s => s ++ "#h") 2
            [{ id := 1, name := "A", email := "a@x.com", passwordHash := "h1",
               role := Role.user }] "B" "A@x.com" "password1" =
          Except.ok ([{ id := 1, name := "A", email := "a@x.com", passwordHash := "h1",
                        role := Role.user }] ++ [u2], u2) ∧
        u2.role = Role.user ∧ u2.email = strToLower "A@x.com" ∧
        u2.passwordHash = (fun s => s ++ "#h") "password1") :=
  C7_register_duplicate_or_create (fun s => s ++ "#h") 2
    [{ id := 1, name := "A", email := "a@x.com", passwordHash := "h1",
       role := Role.user }] "B" "A@x.com" "password1" (by decide)

/-- A category record as the category routes use it. -/
structure Category where
  id : Nat
  name : String
  description : String
  deriving DecidableEq, Repr

/-- Product.countDocuments with the category filter: the number of
products whose category reference equals the given id. -/
def countProductsInCategory (products : List Product) (catId : Nat) : Nat :=
  (products.filter (fun p => p.category == some catId)).length

/-- Category.findByIdAndDelete: removal of the record with the given id. -/
def eraseCategory : List Category → Nat → List Category
  | [], _ => []
  | c :: rest, catId => if c.id == catId then rest else c :: eraseCategory rest catId

/-- The DELETE /:id handler of the category routes: refuse with the
conflict message while any product references the category, then delete
by id, answering 404 when the category is absent. Returns the outcome
together with the category list after the handler ran. -/
def deleteCategory (products : List Product) (categories : List Category)
    (catId : Nat) : Except (Nat × String) String × List Category :=
  let productCount := countProductsInCategory products catId
  if productCount > 0 then
    (Except.error (400, "Cannot delete category. It has " ++ toString productCount ++
       " products. Please move or delete products first."), categories)
  else
    match categories.find? (fun c => c.id == catId) with
    | none => (Except.error (404, "Category not found"), categories)
    | some _ => (Except.ok "Category deleted successfully", eraseCategory categories catId)

/-- The DELETE /categories/:id handler of the admin routes: the same
guard with a fixed conflict message. -/
def adminDeleteCategory (products : List Product) (categories : List Category)
    (catId : Nat) : Except (Nat × String) String × List Category :=
  if countProductsInCategory products catId > 0 then
    (Except.error (400, "Cannot delete category with linked products"), categories)
  else
    match categories.find? (fun c => c.id == catId) with
    | none => (Except.error (404, "Category not found"), categories)
    | some _ => (Except.ok "Category deleted successfully", eraseCategory categories catId)

/-- C8: for an existing category, both deletion routes fail with their
conflict error and leave the category list untouched while at least one
product references the category, both delete the category when no product
references it, and a successful deletion entails a zero reference count
even without the existence hypothesis. -/
theorem C8_delete_category_guard (products : List Product)
    (categories : List Category) (catId : Nat) (c : Category)
    (hex : categories.find? (fun c2 => c2.id == catId) = some c) :
    (0 < countProductsInCategory products catId →
      deleteCategory products categories catId =
        (Except.error (400, "Cannot delete category. It has " ++
           toString (countProductsInCategory products catId) ++
           " products. Please move or delete products first."), categories) ∧
      adminDeleteCategory products categories catId =
        (Except.error (400, "Cannot delete category with linked products"), categories)) ∧
    (countProductsInCategory products catId = 0 →
      deleteCategory products categories catId =
        (Except.ok "Category deleted successfully", eraseCategory categories catId) ∧
      adminDeleteCategory products categories catId =
        (Except.ok "Category deleted successfully", eraseCategory categories catId)) ∧
    (∀ msg cats2, deleteCategory products categories catId = (Except.ok msg, cats2) →
      countProductsInCategory products catId = 0) := by
  refine ⟨?_, ?_, ?_⟩
  · intro hpos
    constructor
    · rw [deleteCategory]
      simp only [if_pos hpos]
    · rw [adminDeleteCategory]
      simp only [if_pos hpos]
  · intro hzero
    have hnot : ¬ countProductsInCategory products catId > 0 := by omega
    constructor
    · rw [deleteCategory]
      simp only [if_neg hnot, hex]
    · rw [adminDeleteCategory]
      simp only [if_neg hnot, hex]
  · intro msg cats2 heq
    by_cases h0 : countProductsInCategory products catId = 0
    · exact h0
    · have hpos : countProductsInCategory products catId > 0 := by omega
      rw [deleteCategory] at heq
      simp only [if_pos hpos] at heq
      exact absurd (congrArg Prod.fst heq) (by simp)

/-- Witness instantiating the category deletion theorem on a one-category
store with no product referencing it. -/
theorem C8_delete_category_guard_witness :
    (0 < countProductsInCategory demoDb 5 →
      deleteCategory demoDb [{ id := 5, name := "Herbs", description := "d" }] 5 =
        (Except.error (400, "Cannot delete category. It has " ++
           toString (countProductsInCategory demoDb 5) ++
           " products. Please move or delete products first."),
         [{ id := 5, name := "Herbs", description := "d" }]) ∧
      adminDeleteCategory demoDb [{ id := 5, name := "Herbs", description := "d" }] 5 =
        (Except.error (400, "Cannot delete category with linked products"),
         [{ id := 5, name := "Herbs", description := "d" }])) ∧
    (countProductsInCategory demoDb 5 = 0 →
      deleteCategory demoDb [{ id := 5, name := "Herbs", description := "d" }] 5 =
        (Except.ok "Category deleted successfully",
         eraseCategory [{ id := 5, name := "Herbs", description := "d" }] 5) ∧
      adminDeleteCategory demoDb [{ id := 5, name := "Herbs", description := "d" }] 5 =
        (Except.ok "Category deleted successfully",
         eraseCategory [{ id := 5, name := "Herbs", description := "d" }] 5)) ∧
    (∀ msg cats2,
      deleteCategory demoDb [{ id := 5, name := "Herbs", description := "d" }] 5 =
        (Except.ok msg, cats2) →
      countProductsInCategory demoDb 5 = 0) :=
  C8_delete_category_guard demoDb [{ id := 5, name := "Herbs", description := "d" }] 5
    { id := 5, name := "Herbs", description := "d" } (by decide)

end AyurvedicBackend
